import Mathlib

/-!
Verification development for the `fmp_data_munge` repository
(`src/fmp_data_munge.py`).

The Python program is shallowly embedded: a pandas row (`pd.Series`) becomes
an ordered association list from column names to cell values, pipe-delimited
cells are split by a character-level model of `str.split('|')`, and fallible
Python code (raising `ValueError`, `KeyError`, `IndexError`, `TypeError`)
becomes `Except PyError` computations.  All definitions are executable so
concrete rows can be evaluated by `rfl`/`decide`.
-/

/-- The Python exceptions raised by the embedded functions.
`requestException` models the `requests` library's exceptions (connection
errors, timeouts, redirect loops) that a network call may raise. -/
inductive PyError where
  | valueError (msg : String)
  | keyError (key : String)
  | indexError
  | typeError
  | requestException (msg : String)
deriving Repr, DecidableEq

/-- Python truthiness of an optional string: `None` and `""` are falsy,
every non-empty string is truthy. -/
def truthy : Option String → Bool
  | none => false
  | some s => s != ""

/-- Character-level model of Python `str.split('|')`: splitting always yields
at least one (possibly empty) piece; `''.split('|') == ['']`. -/
def splitChars : List Char → List (List Char)
  | [] => [[]]
  | c :: cs =>
    if c = '|' then [] :: splitChars cs
    else
      match splitChars cs with
      | [] => [[c]]
      | h :: t => (c :: h) :: t

/-- Python `value.split('|')`. -/
def pySplit (s : String) : List String := (splitChars s.data).map String.mk

/-- Python `'|'.join(values)`. -/
def pyJoin : List String → String
  | [] => ""
  | [s] => s
  | s :: rest => s ++ "|" ++ pyJoin rest

/-- Python `str.lower()`, character-wise. -/
def pyLower (s : String) : String := String.mk (s.data.map Char.toLower)

/-- Python list indexing `l[i]`, raising `IndexError` when out of range. -/
def listGet (l : List String) (i : Nat) : Except PyError String :=
  match l.get? i with
  | some v => .ok v
  | none => .error .indexError

/-- A pandas row (`pd.Series`): an ordered association of column names to
string cell values.  `len(row)` is the number of entries. -/
abbrev Row : Type := List (String × String)

/-- Python `row[col]`: raises `KeyError` when the column is absent. -/
def rowGet (row : Row) (col : String) : Except PyError String :=
  match row.lookup col with
  | some v => .ok v
  | none => .error (.keyError col)

/-- Python `row[col] = v`: replaces the value of an existing column,
else appends the new column at the end of the row. -/
def rowSet (row : Row) (col v : String) : Row :=
  if (row.lookup col).isSome then
    row.map (fun p => if p.1 == col then (col, v) else p)
  else row ++ [(col, v)]

/-- The `FormattedOutput` dataclass: one template chunk.  A chunk `function`
receives the built keyword arguments (parameter name, resolved value) and
returns Python `str | None`; the outer `Except` models exceptions the
function itself may raise (e.g. `build_uri`'s `KeyError`). -/
structure FormattedOutput where
  text : Option String := none
  column_name : Option String := none
  function : Option (List (String × String) → Except PyError (Option String)) := none
  kwargs : Option (List (String × String)) := none

/-- The message of the `ValueError` raised by `process_row`'s mask-argument
check. -/
def maskArgMsg : String := "Both mask_column and mask_value must be provided"

/-- The message of the `ValueError` raised by the per-chunk
`function`/`kwargs` validity check. -/
def chunkArgMsg : String :=
  "FormattedOutput must specify both 'function' and 'kwargs' or neither"

/-! ## Bind-step equations for Except -/

theorem exbind_ok {α β : Type} (a : α) (f : α → Except PyError β) :
    Except.bind (Except.ok a) f = f a := rfl

theorem exbind_error {α β : Type} (e : PyError) (f : α → Except PyError β) :
    Except.bind (Except.error e : Except PyError α) f = Except.error e := rfl

/-- The `built_kwargs` loop inside `process_row`: each declared parameter
name is bound to the `i`-th piped slice of the mapped column's value,
`built_kwargs[k] = row[v].split('|')[i]`. -/
def buildKwargs (row : Row) (i : Nat) :
    List (String × String) → Except PyError (List (String × String))
  | [] => .ok []
  | (k, col) :: rest =>
    Except.bind (rowGet row col) (fun v =>
      Except.bind (listGet (pySplit v) i) (fun s =>
        Except.bind (buildKwargs row i rest) (fun r => .ok ((k, s) :: r))))

/-- `if chunk.text: formatted_text += chunk.text` (truthiness: an empty
`text` contributes nothing). -/
def chunkTextStep (acc : String) (chunk : FormattedOutput) : String :=
  if truthy chunk.text then acc ++ chunk.text.getD "" else acc

/-- `if chunk.column_name: formatted_text += row[chunk.column_name].split('|')[i]`. -/
def chunkColumnStep (row : Row) (i : Nat) (acc : String) (chunk : FormattedOutput) :
    Except PyError String :=
  if truthy chunk.column_name then
    Except.bind (rowGet row (chunk.column_name.getD "")) (fun v =>
      Except.bind (listGet (pySplit v) i) (fun s => .ok (acc ++ s)))
  else .ok acc

/-- `if chunk.function: ... formatted_text += chunk.function(**built_kwargs)`.
A function returning `None` makes `formatted_text += None` raise
`TypeError`. -/
def chunkFunctionStep (row : Row) (i : Nat) (acc : String) (chunk : FormattedOutput) :
    Except PyError String :=
  match chunk.function, chunk.kwargs with
  | some f, some kw =>
    Except.bind (buildKwargs row i kw) (fun built =>
      Except.bind (f built) (fun o =>
        match o with
        | some s => .ok (acc ++ s)
        | none => .error .typeError))
  | _, _ => .ok acc

/-- The body of `process_row`'s inner `for chunk in output_format` loop for a
single chunk at position `i`, growing the accumulated `formatted_text`:
first the XOR validity check on `function`/`kwargs`, then the `text`,
`column_name` and `function` contributions in source order. -/
def processChunk (row : Row) (i : Nat) (acc : String) (chunk : FormattedOutput) :
    Except PyError String :=
  if chunk.function.isSome ^^ chunk.kwargs.isSome then
    .error (.valueError chunkArgMsg)
  else
    Except.bind (chunkColumnStep row i (chunkTextStep acc chunk) chunk) (fun acc2 =>
      chunkFunctionStep row i acc2 chunk)

/-- The `for chunk in output_format` loop: folds `processChunk` over the
template starting from the accumulated text so far. -/
def composeLoop (row : Row) (i : Nat) :
    List FormattedOutput → String → Except PyError String
  | [], acc => .ok acc
  | c :: rest, acc =>
    Except.bind (processChunk row i acc c) (fun acc2 => composeLoop row i rest acc2)

/-- Composition of the whole template at one position: the value appended to
`formatted_output_values` for an included position `i`. -/
def compose (row : Row) (fmt : List FormattedOutput) (i : Nat) :
    Except PyError String :=
  composeLoop row i fmt ""

/-- Python `enumerate`, starting at index `n`. -/
def enumFromIdx : Nat → List α → List (Nat × α)
  | _, [] => []
  | n, a :: as => (n, a) :: enumFromIdx (n + 1) as

/-- The `for i, value in enumerate(values_to_process)` loop of `process_row`:
positions whose flag is `true` are composed and appended to the accumulator;
positions whose flag is `false` are skipped entirely. -/
def maskLoop (row : Row) (fmt : List FormattedOutput) :
    List (Nat × Bool) → List String → Except PyError (List String)
  | [], acc => .ok acc
  | (i, b) :: rest, acc =>
    if b then
      Except.bind (compose row fmt i) (fun t => maskLoop row fmt rest (acc ++ [t]))
    else maskLoop row fmt rest acc

/-- The `values_to_process` computation of `process_row`: with a truthy mask,
one boolean per piped slice of the mask column (case-insensitive comparison
against the mask value); otherwise `[True] * len(row)`. -/
def valuesToProcess (row : Row) (mask_column mask_value : Option String) :
    Except PyError (List Bool) :=
  if truthy mask_column && truthy mask_value then
    Except.bind (rowGet row (mask_column.getD "")) (fun mv =>
      .ok ((pySplit mv).map (fun s => pyLower s == pyLower (mask_value.getD ""))))
  else .ok (List.replicate row.length true)

/-- `process_row` from the source: validates the mask arguments, computes
`values_to_process`, composes every included position, and assigns the
pipe-joined results to the new column. -/
def process_row (row : Row) (new_column_name : String)
    (output_format : List FormattedOutput)
    (mask_column : Option String := none) (mask_value : Option String := none) :
    Except PyError Row :=
  if mask_column.isSome ^^ mask_value.isSome then
    .error (.valueError maskArgMsg)
  else
    Except.bind (valuesToProcess row mask_column mask_value) (fun vtp =>
      Except.bind (maskLoop row output_format (enumFromIdx 0 vtp) []) (fun formatted =>
        .ok (rowSet row new_column_name (pyJoin formatted))))

/-- Composition of a template at each position of an index list in order,
collecting the results; used to state what `process_row` produces. -/
def composeAll (row : Row) (fmt : List FormattedOutput) :
    List Nat → Except PyError (List String)
  | [] => .ok []
  | i :: rest =>
    Except.bind (compose row fmt i) (fun s =>
      Except.bind (composeAll row fmt rest) (fun r => .ok (s :: r)))

/-- The authority registry `auth_dict` of `build_uri`. -/
def auth_dict : List (String × String) :=
  [("lc", "http://id.loc.gov/authorities/names/"),
   ("viaf", "http://viaf.org/viaf/")]

/-- Python f-string rendering of an optional value (`None` prints as
`"None"`). -/
def pyFmt : Option String → String
  | none => "None"
  | some s => s

/-- `build_uri` from the source: `None` or `''` authority yields no URI,
the `'local'` sentinel (case-insensitive) yields no URI, a registered
authority yields its prefix concatenated with the id, and any other
authority raises `KeyError` on the `auth_dict` lookup. -/
def build_uri (authority id : Option String) : Except PyError (Option String) :=
  match authority with
  | none => .ok none
  | some a =>
    if a = "" then .ok none
    else if pyLower a = "local" then .ok none
    else
      match auth_dict.lookup (pyLower a) with
      | some p => .ok (some (p ++ pyFmt id))
      | none => .error (.keyError (pyLower a))

/-- `build_uri` as invoked through `chunk.function(**built_kwargs)`: the
keyword dictionary binds the `authority` and `id` parameters. -/
def build_uri_kw (kw : List (String × String)) : Except PyError (Option String) :=
  build_uri (kw.lookup "authority") (kw.lookup "id")

/-- `reduce_list` from the source:
`'|'.join([value for value, flag in zip(values.split('|'), flags) if flag])`. -/
def reduce_list (values : String) (flags : List Bool) : String :=
  pyJoin (((pySplit values).zip flags).filterMap
    (fun p => if p.2 then some p.1 else none))

/-- `add_nameCorpCreatorLocal_column` from the source: suppresses the local
name when `nameCorpCreatorLC` or `nameCorpCreatorVIAF` is populated, else
takes `row['Organization Name_sources'].split('|')[0]`, falling back to
`Organization Name_subjects` only if that indexing raises `IndexError`
(i.e. only if the split were empty). -/
def add_nameCorpCreatorLocal_column (row : Row) : Except PyError Row :=
  Except.bind (rowGet row "nameCorpCreatorLC") (fun lc =>
    if lc != "" then .ok (rowSet row "nameCorpCreatorLocal" "")
    else
      Except.bind (rowGet row "nameCorpCreatorVIAF") (fun viaf =>
        if viaf != "" then .ok (rowSet row "nameCorpCreatorLocal" "")
        else
          Except.bind (rowGet row "Organization Name_sources") (fun src =>
            match (pySplit src).head? with
            | some v => .ok (rowSet row "nameCorpCreatorLocal" v)
            | none =>
              Except.bind (rowGet row "Organization Name_subjects") (fun subj =>
                match (pySplit subj).head? with
                | some v => .ok (rowSet row "nameCorpCreatorLocal" v)
                | none => .ok (rowSet row "nameCorpCreatorLocal" "")))))

/-- The suppression pass of `main`:
`row['nameCorpCreatorVIAF'] if not row['nameCorpCreatorLC'] else ''`,
assigned back to the `nameCorpCreatorVIAF` column. -/
def suppress_viaf_if_lc (row : Row) : Except PyError Row :=
  Except.bind (rowGet row "nameCorpCreatorLC") (fun lc =>
    if lc = "" then
      Except.bind (rowGet row "nameCorpCreatorVIAF") (fun viaf =>
        .ok (rowSet row "nameCorpCreatorVIAF" viaf))
    else .ok (rowSet row "nameCorpCreatorVIAF" ""))

/-- `get_unique_values_from_column` from the source: the set of distinct
piped values across every cell of the column (the Python `set` is modelled
as a duplicate-free list). -/
def get_unique_values_from_column (column : List String) : List String :=
  ((column.map pySplit).flatten).dedup

/-- The `for value in values` loop of `build_uri_dict`, instrumented with the
trace of resolver invocations.  The resolver (`lc_get_subject_uri`) returns
`.ok (some uri)` on success, `.ok none` when the lookup finds nothing
(`response.ok` false → Python `None`), and `.error` when the underlying
`requests` call raises (network error, timeout, redirect loop) — the loop
has no handler, so such an exception aborts it and propagates.  `.1` is the
list of arguments `api_call` was invoked on before the loop finished or
aborted (one invocation per iteration); `.2` is the outcome: the dictionary,
in which a term is stored only when its resolver value is truthy
(`if uri:` — a non-empty string), or the propagated exception. -/
def build_uri_dict_run :
    List String → (String → Except PyError (Option String)) →
      List String × Except PyError (List (String × String))
  | [], _ => ([], .ok [])
  | v :: vs, api =>
    match api v with
    | .error e => ([v], .error e)
    | .ok (some u) =>
      if u != "" then
        (v :: (build_uri_dict_run vs api).1,
         Except.map (fun d => (v, u) :: d) (build_uri_dict_run vs api).2)
      else (v :: (build_uri_dict_run vs api).1, (build_uri_dict_run vs api).2)
    | .ok none => (v :: (build_uri_dict_run vs api).1, (build_uri_dict_run vs api).2)

/-- `build_uri_dict` from the source: the outcome of the uninstrumented
loop — the built dictionary, or the first exception the resolver raised
(the loop does not catch it). -/
def build_uri_dict (values : List String)
    (api_call : String → Except PyError (Option String)) :
    Except PyError (List (String × String)) :=
  (build_uri_dict_run values api_call).2

/-! ## Lemmas about the piped-value primitives -/

theorem splitChars_ne_nil (l : List Char) : splitChars l ≠ [] := by
  cases l with
  | nil => simp [splitChars]
  | cons c cs =>
    unfold splitChars
    split
    · simp
    · split <;> simp

theorem pySplit_ne_nil (s : String) : pySplit s ≠ [] := by
  unfold pySplit
  intro h
  exact splitChars_ne_nil s.data (List.map_eq_nil_iff.mp h)

/-! ## Lemmas about row update and lookup -/

theorem lookup_map_replace (c v : String) : ∀ (row : Row),
    (row.lookup c).isSome = true →
    ((row.map (fun p => if p.1 == c then (c, v) else p)).lookup c) = some v := by
  intro row
  induction row with
  | nil => intro h; simp [List.lookup] at h
  | cons p rest ih =>
    intro h
    obtain ⟨k, w⟩ := p
    cases hkc : (k == c) with
    | true =>
      have hk : k = c := by simpa using hkc
      subst hk
      simp only [List.map_cons]
      rw [show (if (k, w).1 == k then (k, v) else (k, w)) = (k, v) from
        if_pos (by simp)]
      simp [List.lookup]
    | false =>
      have hk : ¬ k = c := by simpa using hkc
      have hck : (c == k) = false := by simp [Ne.symm hk]
      simp only [List.map_cons]
      rw [show (if (k, w).1 == c then (c, v) else (k, w)) = (k, w) from
        if_neg (by simp [hkc])]
      simp only [List.lookup, hck]
      exact ih (by simpa [List.lookup, hck] using h)

theorem lookup_append_missing (c v : String) : ∀ (row : Row),
    row.lookup c = none → ((row ++ [(c, v)]).lookup c) = some v := by
  intro row
  induction row with
  | nil => intro _; simp [List.lookup]
  | cons p rest ih =>
    intro h
    obtain ⟨k, w⟩ := p
    have hck : (c == k) = false := by
      cases hx : (c == k) with
      | false => rfl
      | true => simp [List.lookup, hx] at h
    simp only [List.cons_append, List.lookup, hck] at h ⊢
    exact ih h

theorem lookup_rowSet_self (row : Row) (c v : String) :
    (rowSet row c v).lookup c = some v := by
  unfold rowSet
  split
  · exact lookup_map_replace c v row (by assumption)
  · apply lookup_append_missing
    rename_i h
    cases hx : row.lookup c with
    | none => rfl
    | some w => rw [hx] at h; simp at h

theorem rowGet_rowSet_self (row : Row) (c v : String) :
    rowGet (rowSet row c v) c = .ok v := by
  unfold rowGet
  rw [lookup_rowSet_self]

/-! ## Lemmas about enumeration and the mask loop -/

theorem enumFromIdx_map (f : α → β) : ∀ (n : Nat) (l : List α),
    enumFromIdx n (l.map f) = (enumFromIdx n l).map (fun p => (p.1, f p.2)) := by
  intro n l
  induction l generalizing n with
  | nil => rfl
  | cons a as ih => simp [enumFromIdx, ih]

theorem enumFromIdx_replicate_true : ∀ (n k : Nat),
    enumFromIdx n (List.replicate k true) =
      (List.range' n k).map (fun i => (i, true)) := by
  intro n k
  induction k generalizing n with
  | zero => rfl
  | succ k ih => simp [List.replicate, enumFromIdx, List.range'_succ, ih]

theorem maskLoop_eq (row : Row) (fmt : List FormattedOutput) :
    ∀ (l : List (Nat × Bool)) (acc : List String),
    maskLoop row fmt l acc =
      Except.map (fun vs => acc ++ vs)
        (composeAll row fmt ((l.filter (fun p => p.2)).map Prod.fst)) := by
  intro l
  induction l with
  | nil => intro acc; simp [maskLoop, composeAll, Except.map]
  | cons p rest ih =>
    intro acc
    obtain ⟨i, b⟩ := p
    cases b with
    | false => simpa [maskLoop, List.filter] using ih acc
    | true =>
      rw [show maskLoop row fmt ((i, true) :: rest) acc =
          Except.bind (compose row fmt i)
            (fun t => maskLoop row fmt rest (acc ++ [t])) from rfl]
      rw [show ((((i, true) :: rest).filter (fun p => p.2)).map Prod.fst) =
          i :: ((rest.filter (fun p => p.2)).map Prod.fst) from by simp [List.filter]]
      rw [show composeAll row fmt (i :: ((rest.filter (fun p => p.2)).map Prod.fst)) =
          Except.bind (compose row fmt i) (fun s =>
            Except.bind (composeAll row fmt ((rest.filter (fun p => p.2)).map Prod.fst))
              (fun r => Except.ok (s :: r))) from rfl]
      cases hc : compose row fmt i with
      | error e =>
        rw [exbind_error, exbind_error]
        rfl
      | ok t =>
        simp only [exbind_ok]
        rw [ih (acc ++ [t])]
        cases hca : composeAll row fmt ((rest.filter (fun p => p.2)).map Prod.fst) with
        | error e => simp [Except.map, exbind_error]
        | ok r => simp [Except.map, exbind_ok]

/-! ## Claim C1: alignment length without a mask -/

/-- C1 (amended): with no mask, `process_row` does not treat the row as
having one position; it computes `values_to_process = [True] * len(row)`,
so it composes one string per entry of the row (`L = len(row)`, the number
of columns) and joins the `len(row)` results with `'|'`. -/
theorem process_row_no_mask_composes_len_row_positions (row : Row) (ncol : String)
    (fmt : List FormattedOutput) :
    process_row row ncol fmt none none =
      Except.map (fun vs => rowSet row ncol (pyJoin vs))
        (composeAll row fmt (List.range row.length)) := by
  show Except.bind (maskLoop row fmt (enumFromIdx 0 (List.replicate row.length true)) [])
      (fun formatted => Except.ok (rowSet row ncol (pyJoin formatted))) =
    Except.map (fun vs => rowSet row ncol (pyJoin vs))
      (composeAll row fmt (List.range row.length))
  rw [List.range_eq_range', enumFromIdx_replicate_true 0 row.length, maskLoop_eq]
  rw [show ((((List.range' 0 row.length).map (fun i => (i, true))).filter
      (fun p => p.2)).map Prod.fst) = List.range' 0 row.length from by
    rw [List.filter_map, List.map_map]
    show ((List.range' 0 row.length).filter (fun _ => true)).map (fun i => i) = _
    rw [List.filter_true]
    exact List.map_id' _]
  cases hca : composeAll row fmt (List.range' 0 row.length) with
  | error e => simp [Except.map, exbind_error]
  | ok r => simp [Except.map, exbind_ok]

/-- A row with two entries, used to refute the `L = 1` reading of C1. -/
def exRowTwoCols : Row := [("A", "x"), ("B", "y")]

/-- C1 counterexample: on a two-column row with no mask and a single literal
chunk `"z"`, `process_row` assigns `"z|z"` (two composed strings), not the
single composed string `"z"` that the claim requires. -/
theorem process_row_no_mask_not_single_position :
    process_row exRowTwoCols "New" [{ text := some "z" }] none none =
      .ok (exRowTwoCols ++ [("New", "z|z")]) ∧ "z|z" ≠ "z" :=
  ⟨rfl, by decide⟩

/-! ## Claim C2: mask filtering -/

/-- C2: with a (truthy) mask pair, `process_row` composes exactly the
positions whose slice of the mask column compares case-insensitively equal
to the mask value, skipping excluded positions entirely, in original
positional order, and joins the results with `'|'` into the new column. -/
theorem process_row_mask_filters_positions (row : Row) (ncol : String)
    (fmt : List FormattedOutput) (mc mv mval : String)
    (hmc : mc ≠ "") (hmv : mv ≠ "") (hval : rowGet row mc = .ok mval) :
    process_row row ncol fmt (some mc) (some mv) =
      Except.map (fun vs => rowSet row ncol (pyJoin vs))
        (composeAll row fmt
          (((enumFromIdx 0 (pySplit mval)).filter
              (fun p => pyLower p.2 == pyLower mv)).map Prod.fst)) := by
  have step2 : valuesToProcess row (some mc) (some mv) =
      .ok ((pySplit mval).map (fun s => pyLower s == pyLower mv)) := by
    unfold valuesToProcess
    rw [if_pos (show (truthy (some mc) && truthy (some mv)) = true by
      simp [truthy, hmc, hmv])]
    rw [show (some mc).getD "" = mc from rfl, hval]
    rfl
  have step3 : process_row row ncol fmt (some mc) (some mv) =
      Except.bind (maskLoop row fmt
          (enumFromIdx 0 ((pySplit mval).map (fun s => pyLower s == pyLower mv))) [])
        (fun formatted => Except.ok (rowSet row ncol (pyJoin formatted))) := by
    show Except.bind (valuesToProcess row (some mc) (some mv)) (fun vtp =>
        Except.bind (maskLoop row fmt (enumFromIdx 0 vtp) []) (fun formatted =>
          Except.ok (rowSet row ncol (pyJoin formatted)))) =
      Except.bind (maskLoop row fmt
          (enumFromIdx 0 ((pySplit mval).map (fun s => pyLower s == pyLower mv))) [])
        (fun formatted => Except.ok (rowSet row ncol (pyJoin formatted)))
    rw [step2]
    simp only [exbind_ok]
  rw [step3]
  simp only [enumFromIdx_map]
  rw [maskLoop_eq]
  rw [show ((((enumFromIdx 0 (pySplit mval)).map
        (fun p => (p.1, pyLower p.2 == pyLower mv))).filter
        (fun p => p.2)).map Prod.fst) =
      ((enumFromIdx 0 (pySplit mval)).filter
        (fun p => pyLower p.2 == pyLower mv)).map Prod.fst from by
    rw [List.filter_map, List.map_map]
    rfl]
  cases hca : composeAll row fmt
      (((enumFromIdx 0 (pySplit mval)).filter
        (fun p => pyLower p.2 == pyLower mv)).map Prod.fst) with
  | error e => simp [Except.map, exbind_error]
  | ok r => simp [Except.map, exbind_ok]

/-- The mask-filtering example row of the spec. -/
def exMaskRow : Row := [("Name", "Smith|Jones|Lee"), ("Source", "LCNAF|local|VIAF")]

/-- The single column-reference template used by the mask-filtering example. -/
def exNameTemplate : List FormattedOutput := [{ column_name := some "Name" }]

/-- C2 witness: instantiating the mask-filtering theorem on the spec's
example row yields exactly `"Jones"`. -/
theorem process_row_mask_filters_positions_witness :
    process_row exMaskRow "New" exNameTemplate (some "Source") (some "local") =
      .ok (exMaskRow ++ [("New", "Jones")]) := by
  rw [process_row_mask_filters_positions exMaskRow "New" exNameTemplate
    "Source" "local" "LCNAF|local|VIAF" (by decide) (by decide) rfl]
  rfl

/-! ## Claim C3: function-reference chunks -/

/-- C3 (amended): in a function-reference chunk, every declared parameter is
resolved to the `position`-th piped slice of its mapped column and the
function is invoked on the resolved arguments; a string result is appended
to the accumulated text, but when the function returns `None` the chunk does
not contribute nothing — Python's `formatted_text += None` raises a
`TypeError`, aborting the composition. -/
theorem chunk_function_resolution_and_none_behavior :
    (∀ (row : Row) (i : Nat) (kw built : List (String × String)) (k col : String),
      buildKwargs row i kw = .ok built → (k, col) ∈ kw →
      ∃ v s, rowGet row col = .ok v ∧ listGet (pySplit v) i = .ok s ∧ (k, s) ∈ built)
    ∧ (∀ (row : Row) (i : Nat) (acc : String)
        (f : List (String × String) → Except PyError (Option String))
        (kw built : List (String × String)) (s : String),
      buildKwargs row i kw = .ok built → f built = .ok (some s) →
      processChunk row i acc ⟨none, none, some f, some kw⟩ = .ok (acc ++ s))
    ∧ (∀ (row : Row) (i : Nat) (acc : String)
        (f : List (String × String) → Except PyError (Option String))
        (kw built : List (String × String)),
      buildKwargs row i kw = .ok built → f built = .ok none →
      processChunk row i acc ⟨none, none, some f, some kw⟩ = .error .typeError) := by
  refine ⟨?_, ?_, ?_⟩
  · intro row i kw
    induction kw with
    | nil =>
      intro built k col _ hmem
      simp at hmem
    | cons p rest ih =>
      intro built k col h hmem
      obtain ⟨k', col'⟩ := p
      unfold buildKwargs at h
      cases hv : rowGet row col' with
      | error e => simp only [hv, exbind_error] at h; exact absurd h (by simp)
      | ok v =>
        simp only [hv, exbind_ok] at h
        cases hs : listGet (pySplit v) i with
        | error e => simp only [hs, exbind_error] at h; exact absurd h (by simp)
        | ok s =>
          simp only [hs, exbind_ok] at h
          cases hr : buildKwargs row i rest with
          | error e => simp only [hr, exbind_error] at h; exact absurd h (by simp)
          | ok r =>
            simp only [hr, exbind_ok] at h
            injection h with hb
            rcases List.mem_cons.mp hmem with heq2 | hmem'
            · have hk : k = k' := congrArg Prod.fst heq2
              have hcol : col = col' := congrArg Prod.snd heq2
              subst hk; subst hcol
              exact ⟨v, s, hv, hs, hb ▸ List.mem_cons_self _ _⟩
            · obtain ⟨v', s', hv', hs', hmem''⟩ := ih r k col hr hmem'
              exact ⟨v', s', hv', hs', hb ▸ List.mem_cons_of_mem _ hmem''⟩
  · intro row i acc f kw built s hb hf
    show Except.bind (buildKwargs row i kw) (fun built' =>
        Except.bind (f built') (fun o =>
          match o with
          | some t => Except.ok (acc ++ t)
          | none => Except.error PyError.typeError)) = Except.ok (acc ++ s)
    rw [hb]
    simp only [exbind_ok]
    rw [hf]
    simp [exbind_ok]
  · intro row i acc f kw built hb hf
    show Except.bind (buildKwargs row i kw) (fun built' =>
        Except.bind (f built') (fun o =>
          match o with
          | some t => Except.ok (acc ++ t)
          | none => Except.error PyError.typeError)) = Except.error PyError.typeError
    rw [hb]
    simp only [exbind_ok]
    rw [hf]
    simp [exbind_ok]

/-- A row whose authority is the `'local'` sentinel, so `build_uri`
returns `None`. -/
def exRowFn : Row := [("Authority Used", "local"), ("Authority ID", "x")]

/-- The keyword mapping of the `build_uri` chunk used in `main`. -/
def exKwFn : List (String × String) :=
  [("authority", "Authority Used"), ("id", "Authority ID")]

/-- C3 counterexample: at an included masked position whose function chunk
(`build_uri`) returns `None`, `process_row` raises `TypeError` instead of
letting the chunk contribute nothing. -/
theorem process_row_function_none_counterexample :
    process_row exRowFn "out" [{ function := some build_uri_kw, kwargs := some exKwFn }]
      (some "Authority Used") (some "local") = .error .typeError := rfl

/-- C3 witness: the `TypeError` case instantiated on a concrete row,
function (`build_uri`) and keyword mapping. -/
theorem chunk_function_resolution_and_none_behavior_witness :
    processChunk exRowFn 0 "" ⟨none, none, some build_uri_kw, some exKwFn⟩ =
      .error .typeError :=
  chunk_function_resolution_and_none_behavior.2.2 exRowFn 0 "" build_uri_kw exKwFn
    [("authority", "local"), ("id", "x")] rfl rfl



/-! ## Claim C4: build_uri case analysis -/

/-- C4: `build_uri` maps each registered authority code (case-insensitively)
to its fixed prefix concatenated with the local id; the two spec examples
hold; a `'local'` code (case-insensitive) yields no URI; a missing (`None`)
or empty code yields no URI without error; and an unrecognized code such as
`"bogus"` raises the registry lookup error (`KeyError`, the
`UnknownAuthority` condition). -/
theorem build_uri_cases :
    (∀ (a i p : String), auth_dict.lookup (pyLower a) = some p → a ≠ "" →
      pyLower a ≠ "local" → build_uri (some a) (some i) = .ok (some (p ++ i)))
    ∧ build_uri (some "lc") (some "n79021383") =
        .ok (some "http://id.loc.gov/authorities/names/n79021383")
    ∧ build_uri (some "viaf") (some "123") = .ok (some "http://viaf.org/viaf/123")
    ∧ (∀ (a : String) (i : Option String), pyLower a = "local" →
        build_uri (some a) i = .ok none)
    ∧ (∀ i : Option String, build_uri none i = .ok none)
    ∧ (∀ i : Option String, build_uri (some "") i = .ok none)
    ∧ build_uri (some "bogus") (some "x") = .error (.keyError "bogus") := by
  refine ⟨?_, rfl, rfl, ?_, fun _ => rfl, fun _ => rfl, rfl⟩
  · intro a i p hp ha hl
    show (if a = "" then Except.ok none
        else if pyLower a = "local" then Except.ok none
        else
          match auth_dict.lookup (pyLower a) with
          | some q => Except.ok (some (q ++ pyFmt (some i)))
          | none => Except.error (PyError.keyError (pyLower a))) =
      Except.ok (some (p ++ i))
    rw [if_neg ha, if_neg hl, hp]
    rfl
  · intro a i hl
    have ha : a ≠ "" := by
      intro h
      subst h
      exact absurd hl (by decide)
    show (if a = "" then Except.ok none
        else if pyLower a = "local" then Except.ok none
        else
          match auth_dict.lookup (pyLower a) with
          | some q => Except.ok (some (q ++ pyFmt i))
          | none => Except.error (PyError.keyError (pyLower a))) =
      Except.ok none
    rw [if_neg ha, if_pos hl]

/-- C4 witness: the registered-prefix clause applied to the mixed-case code
`"LC"`, the local clause applied to `"LoCaL"`, and the missing-code clause. -/
theorem build_uri_cases_witness :
    build_uri (some "LC") (some "z") =
      .ok (some ("http://id.loc.gov/authorities/names/" ++ "z")) ∧
    build_uri (some "LoCaL") (some "q") = .ok none ∧
    build_uri none (some "w") = .ok none :=
  ⟨build_uri_cases.1 "LC" "z" "http://id.loc.gov/authorities/names/" rfl
      (by decide) (by decide),
   build_uri_cases.2.2.2.1 "LoCaL" (some "q") rfl,
   build_uri_cases.2.2.2.2.1 (some "w")⟩

/-! ## Claim C5: the mask-argument check -/

theorem rowGet_shape (row : Row) (c : String) :
    (∃ v, rowGet row c = .ok v) ∨ rowGet row c = .error (.keyError c) := by
  unfold rowGet
  cases row.lookup c with
  | none => exact Or.inr rfl
  | some v => exact Or.inl ⟨v, rfl⟩

theorem listGet_shape (l : List String) (i : Nat) :
    (∃ v, listGet l i = .ok v) ∨ listGet l i = .error .indexError := by
  unfold listGet
  cases l.get? i with
  | none => exact Or.inr rfl
  | some v => exact Or.inl ⟨v, rfl⟩

theorem buildKwargs_shape (row : Row) (i : Nat) : ∀ (kw : List (String × String)),
    (∃ r, buildKwargs row i kw = .ok r) ∨
    (∃ k, buildKwargs row i kw = .error (.keyError k)) ∨
    buildKwargs row i kw = .error .indexError := by
  intro kw
  induction kw with
  | nil => exact Or.inl ⟨[], rfl⟩
  | cons p rest ih =>
    obtain ⟨k', col'⟩ := p
    unfold buildKwargs
    rcases rowGet_shape row col' with ⟨v, hv⟩ | hv
    · rcases listGet_shape (pySplit v) i with ⟨s, hs⟩ | hs
      · rcases ih with ⟨r, hr⟩ | ⟨k, hr⟩ | hr
        · exact Or.inl ⟨(k', s) :: r, by simp [hv, hs, hr, exbind_ok]⟩
        · exact Or.inr (Or.inl ⟨k, by simp [hv, hs, hr, exbind_ok, exbind_error]⟩)
        · exact Or.inr (Or.inr (by simp [hv, hs, hr, exbind_ok, exbind_error]))
      · exact Or.inr (Or.inr (by simp [hv, hs, exbind_ok, exbind_error]))
    · exact Or.inr (Or.inl ⟨col', by simp [hv, exbind_error]⟩)

theorem chunkColumnStep_ne_maskArg (row : Row) (i : Nat) (acc : String)
    (c : FormattedOutput) :
    chunkColumnStep row i acc c ≠ .error (.valueError maskArgMsg) := by
  unfold chunkColumnStep
  split
  · rcases rowGet_shape row (c.column_name.getD "") with ⟨v, hv⟩ | hv
    · rcases listGet_shape (pySplit v) i with ⟨s, hs⟩ | hs
      · simp [hv, hs, exbind_ok]
      · simp [hv, hs, exbind_ok, exbind_error]
    · simp [hv, exbind_error]
  · simp

theorem chunkFunctionStep_ne_maskArg (row : Row) (i : Nat) (acc : String)
    (c : FormattedOutput)
    (hc : ∀ g, c.function = some g → ∀ kw, g kw ≠ .error (.valueError maskArgMsg)) :
    chunkFunctionStep row i acc c ≠ .error (.valueError maskArgMsg) := by
  unfold chunkFunctionStep
  cases hf : c.function with
  | none => cases c.kwargs <;> simp
  | some f =>
    cases c.kwargs with
    | none => simp
    | some kw =>
      show Except.bind (buildKwargs row i kw) (fun built =>
          Except.bind (f built) (fun o =>
            match o with
            | some s => Except.ok (acc ++ s)
            | none => Except.error PyError.typeError)) ≠
        Except.error (PyError.valueError maskArgMsg)
      rcases buildKwargs_shape row i kw with ⟨r, hr⟩ | ⟨k, hr⟩ | hr
      · simp only [hr, exbind_ok]
        cases hfr : f r with
        | error e =>
          simp only [exbind_error]
          intro h
          have he : e = PyError.valueError maskArgMsg := by injection h
          exact hc f hf r (he ▸ hfr)
        | ok o =>
          cases o with
          | none => simp [exbind_ok]
          | some s => simp [exbind_ok]
      · simp [hr, exbind_error]
      · simp [hr, exbind_error]

theorem processChunk_ne_maskArg (row : Row) (i : Nat) (acc : String)
    (c : FormattedOutput)
    (hc : ∀ g, c.function = some g → ∀ kw, g kw ≠ .error (.valueError maskArgMsg)) :
    processChunk row i acc c ≠ .error (.valueError maskArgMsg) := by
  unfold processChunk
  split
  · intro h
    have h' : PyError.valueError chunkArgMsg = PyError.valueError maskArgMsg := by
      injection h
    have h'' : chunkArgMsg = maskArgMsg := by injection h'
    exact absurd h'' (by decide)
  · cases hcc : chunkColumnStep row i (chunkTextStep acc c) c with
    | error e =>
      simp only [hcc, exbind_error]
      intro h
      exact chunkColumnStep_ne_maskArg row i (chunkTextStep acc c) c (hcc.trans h)
    | ok acc2 =>
      simp only [hcc, exbind_ok]
      exact chunkFunctionStep_ne_maskArg row i acc2 c hc

theorem composeLoop_ne_maskArg (row : Row) (i : Nat) :
    ∀ (fmt : List FormattedOutput) (acc : String),
    (∀ c ∈ fmt, ∀ g, c.function = some g → ∀ kw,
      g kw ≠ .error (.valueError maskArgMsg)) →
    composeLoop row i fmt acc ≠ .error (.valueError maskArgMsg) := by
  intro fmt
  induction fmt with
  | nil => intro acc _; simp [composeLoop]
  | cons c rest ih =>
    intro acc hc
    unfold composeLoop
    cases hp : processChunk row i acc c with
    | error e =>
      simp only [hp, exbind_error]
      intro h
      exact processChunk_ne_maskArg row i acc c
        (fun g hg kw => hc c (List.mem_cons_self c rest) g hg kw) (hp.trans h)
    | ok acc2 =>
      simp only [hp, exbind_ok]
      exact ih acc2 (fun c' hc' => hc c' (List.mem_cons_of_mem _ hc'))

theorem maskLoop_ne_maskArg (row : Row) (fmt : List FormattedOutput)
    (hc : ∀ c ∈ fmt, ∀ g, c.function = some g → ∀ kw,
      g kw ≠ .error (.valueError maskArgMsg)) :
    ∀ (l : List (Nat × Bool)) (acc : List String),
    maskLoop row fmt l acc ≠ .error (.valueError maskArgMsg) := by
  intro l
  induction l with
  | nil => intro acc; simp [maskLoop]
  | cons p rest ih =>
    intro acc
    obtain ⟨i, b⟩ := p
    cases b with
    | false => exact ih acc
    | true =>
      show Except.bind (compose row fmt i)
          (fun t => maskLoop row fmt rest (acc ++ [t])) ≠
        Except.error (PyError.valueError maskArgMsg)
      cases hcm : compose row fmt i with
      | error e =>
        simp only [exbind_error]
        intro h
        have he : e = PyError.valueError maskArgMsg := by injection h
        exact composeLoop_ne_maskArg row i fmt "" hc (he ▸ hcm)
      | ok t =>
        simp only [exbind_ok]
        exact ih (acc ++ [t])

theorem valuesToProcess_ne_maskArg (row : Row) (mc mv : Option String) :
    valuesToProcess row mc mv ≠ .error (.valueError maskArgMsg) := by
  unfold valuesToProcess
  split
  · rcases rowGet_shape row (mc.getD "") with ⟨v, hv⟩ | hv
    · simp [hv, exbind_ok]
    · simp [hv, exbind_error]
  · simp

/-- C5: `process_row` raises the mask-argument `ValueError` exactly when one
of (mask column, mask value) is supplied without the other, provided the
template's chunk functions do not themselves raise that very error. -/
theorem process_row_mask_argument_error_iff (row : Row) (ncol : String)
    (fmt : List FormattedOutput) (mc mv : Option String)
    (hfns : ∀ c ∈ fmt, ∀ g, c.function = some g → ∀ kw,
      g kw ≠ .error (.valueError maskArgMsg)) :
    process_row row ncol fmt mc mv = .error (.valueError maskArgMsg) ↔
      (mc.isSome ^^ mv.isSome) = true := by
  unfold process_row
  constructor
  · intro h
    by_contra hx
    rw [if_neg hx] at h
    cases hvt : valuesToProcess row mc mv with
    | error e =>
      simp only [hvt, exbind_error] at h
      have he : e = PyError.valueError maskArgMsg := by injection h
      exact valuesToProcess_ne_maskArg row mc mv (he ▸ hvt)
    | ok vtp =>
      simp only [hvt, exbind_ok] at h
      cases hml : maskLoop row fmt (enumFromIdx 0 vtp) [] with
      | error e =>
        simp only [hml, exbind_error] at h
        have he : e = PyError.valueError maskArgMsg := by injection h
        exact maskLoop_ne_maskArg row fmt hfns _ _ (he ▸ hml)
      | ok f =>
        simp only [hml, exbind_ok] at h
        exact absurd h (by simp)
  · intro h
    rw [if_pos h]

/-- C5 witness: supplying only the mask column on a concrete row raises the
mask-argument error. -/
theorem process_row_mask_argument_error_iff_witness :
    process_row ([] : Row) "n" [] (some "a") none =
      .error (.valueError maskArgMsg) :=
  (process_row_mask_argument_error_iff [] "n" [] (some "a") none (by simp)).mpr rfl

/-! ## Claim C6: reduce_list on mismatched lengths -/

theorem zip_eq_zip_take {α β : Type} (l₁ : List α) (l₂ : List β) :
    l₁.zip l₂ = (l₁.take l₂.length).zip (l₂.take l₁.length) := by
  induction l₁ generalizing l₂ with
  | nil => simp
  | cons a l ih =>
    cases l₂ with
    | nil => simp
    | cons b m => simp [ih m]

/-- C6 counterexample: on a flag list shorter than the piped values,
`reduce_list` silently truncates and returns `"a"`; it raises no error. -/
theorem reduce_list_truncates_counterexample :
    reduce_list "a|b|c" [true] = "a" ∧ (pySplit "a|b|c").length ≠ [true].length :=
  ⟨rfl, by decide⟩

/-- C6 (amended): `reduce_list` is a total function implementing `zip`
truncation — when lengths mismatch it silently drops the longer side's tail,
operating only on the first `min(len(values.split), len(flags))` positions,
instead of failing with a shape error. -/
theorem reduce_list_zip_truncation (values : String) (flags : List Bool) :
    reduce_list values flags =
      pyJoin ((((pySplit values).take flags.length).zip
          (flags.take (pySplit values).length)).filterMap
        (fun p => if p.2 then some p.1 else none)) := by
  unfold reduce_list
  rw [← zip_eq_zip_take]

/-! ## Claim C7: one resolver call per distinct term -/

theorem exmap_ok {α β : Type} (f : α → β) (a : α) :
    Except.map f (Except.ok a : Except PyError α) = Except.ok (f a) := rfl

theorem exmap_error {α β : Type} (f : α → β) (e : PyError) :
    Except.map f (Except.error e : Except PyError α) = Except.error e := rfl

theorem run_cons_error (api : String → Except PyError (Option String)) (v : String)
    (rest : List String) (e : PyError) (hv : api v = .error e) :
    build_uri_dict_run (v :: rest) api = ([v], .error e) := by
  show (match api v with
        | .error e => ([v], (.error e : Except PyError (List (String × String))))
        | .ok (some u) =>
          if u != "" then
            (v :: (build_uri_dict_run rest api).1,
             Except.map (fun d => (v, u) :: d) (build_uri_dict_run rest api).2)
          else (v :: (build_uri_dict_run rest api).1, (build_uri_dict_run rest api).2)
        | .ok none =>
          (v :: (build_uri_dict_run rest api).1, (build_uri_dict_run rest api).2)) = _
  rw [hv]

theorem run_cons_none (api : String → Except PyError (Option String)) (v : String)
    (rest : List String) (hv : api v = .ok none) :
    build_uri_dict_run (v :: rest) api =
      (v :: (build_uri_dict_run rest api).1, (build_uri_dict_run rest api).2) := by
  show (match api v with
        | .error e => ([v], (.error e : Except PyError (List (String × String))))
        | .ok (some u) =>
          if u != "" then
            (v :: (build_uri_dict_run rest api).1,
             Except.map (fun d => (v, u) :: d) (build_uri_dict_run rest api).2)
          else (v :: (build_uri_dict_run rest api).1, (build_uri_dict_run rest api).2)
        | .ok none =>
          (v :: (build_uri_dict_run rest api).1, (build_uri_dict_run rest api).2)) = _
  rw [hv]

theorem run_cons_some_empty (api : String → Except PyError (Option String)) (v : String)
    (rest : List String) (u : String) (hv : api v = .ok (some u)) (hu : u = "") :
    build_uri_dict_run (v :: rest) api =
      (v :: (build_uri_dict_run rest api).1, (build_uri_dict_run rest api).2) := by
  show (match api v with
        | .error e => ([v], (.error e : Except PyError (List (String × String))))
        | .ok (some u) =>
          if u != "" then
            (v :: (build_uri_dict_run rest api).1,
             Except.map (fun d => (v, u) :: d) (build_uri_dict_run rest api).2)
          else (v :: (build_uri_dict_run rest api).1, (build_uri_dict_run rest api).2)
        | .ok none =>
          (v :: (build_uri_dict_run rest api).1, (build_uri_dict_run rest api).2)) = _
  rw [hv]
  show (if u != "" then
      (v :: (build_uri_dict_run rest api).1,
       Except.map (fun d => (v, u) :: d) (build_uri_dict_run rest api).2)
    else (v :: (build_uri_dict_run rest api).1, (build_uri_dict_run rest api).2)) = _
  rw [if_neg (by simp [hu])]

theorem run_cons_some_ne (api : String → Except PyError (Option String)) (v : String)
    (rest : List String) (u : String) (hv : api v = .ok (some u)) (hu : u ≠ "") :
    build_uri_dict_run (v :: rest) api =
      (v :: (build_uri_dict_run rest api).1,
       Except.map (fun d => (v, u) :: d) (build_uri_dict_run rest api).2) := by
  show (match api v with
        | .error e => ([v], (.error e : Except PyError (List (String × String))))
        | .ok (some u) =>
          if u != "" then
            (v :: (build_uri_dict_run rest api).1,
             Except.map (fun d => (v, u) :: d) (build_uri_dict_run rest api).2)
          else (v :: (build_uri_dict_run rest api).1, (build_uri_dict_run rest api).2)
        | .ok none =>
          (v :: (build_uri_dict_run rest api).1, (build_uri_dict_run rest api).2)) = _
  rw [hv]
  show (if u != "" then
      (v :: (build_uri_dict_run rest api).1,
       Except.map (fun d => (v, u) :: d) (build_uri_dict_run rest api).2)
    else (v :: (build_uri_dict_run rest api).1, (build_uri_dict_run rest api).2)) = _
  rw [if_pos (by simp [hu])]

theorem build_uri_dict_run_trace_sublist (api : String → Except PyError (Option String)) :
    ∀ (vs : List String), List.Sublist (build_uri_dict_run vs api).1 vs := by
  intro vs
  induction vs with
  | nil => exact List.Sublist.refl []
  | cons v rest ih =>
    cases hv : api v with
    | error e =>
      rw [run_cons_error api v rest e hv]
      show List.Sublist [v] (v :: rest)
      exact List.Sublist.cons₂ v (List.nil_sublist rest)
    | ok uri =>
      cases uri with
      | none =>
        rw [run_cons_none api v rest hv]
        show List.Sublist (v :: (build_uri_dict_run rest api).1) (v :: rest)
        exact List.Sublist.cons₂ v ih
      | some u =>
        by_cases hu : u = ""
        · rw [run_cons_some_empty api v rest u hv hu]
          show List.Sublist (v :: (build_uri_dict_run rest api).1) (v :: rest)
          exact List.Sublist.cons₂ v ih
        · rw [run_cons_some_ne api v rest u hv hu]
          show List.Sublist (v :: (build_uri_dict_run rest api).1) (v :: rest)
          exact List.Sublist.cons₂ v ih

theorem build_uri_dict_run_trace (api : String → Except PyError (Option String))
    (hnr : ∀ v e, api v ≠ .error e) :
    ∀ (vs : List String), (build_uri_dict_run vs api).1 = vs := by
  intro vs
  induction vs with
  | nil => rfl
  | cons v rest ih =>
    cases hv : api v with
    | error e => exact absurd hv (hnr v e)
    | ok uri =>
      cases uri with
      | none =>
        rw [run_cons_none api v rest hv]
        show v :: (build_uri_dict_run rest api).1 = v :: rest
        rw [ih]
      | some u =>
        by_cases hu : u = ""
        · rw [run_cons_some_empty api v rest u hv hu]
          show v :: (build_uri_dict_run rest api).1 = v :: rest
          rw [ih]
        · rw [run_cons_some_ne api v rest u hv hu]
          show v :: (build_uri_dict_run rest api).1 = v :: rest
          rw [ih]

/-- C7: building the subject cache never queries any term more than once,
and when the resolver raises no exception the invocation trace contains
each term occurring anywhere among the column's piped values exactly once,
regardless of how many rows contain it. -/
theorem resolver_called_once_per_distinct_term :
    (∀ (column : List String) (api : String → Except PyError (Option String))
       (t : String), (∀ v e, api v ≠ .error e) →
      ((build_uri_dict_run (get_unique_values_from_column column) api).1).count t =
        if t ∈ (column.map pySplit).flatten then 1 else 0)
    ∧ (∀ (column : List String) (api : String → Except PyError (Option String))
       (t : String),
      ((build_uri_dict_run (get_unique_values_from_column column) api).1).count t ≤ 1) := by
  constructor
  · intro column api t hnr
    rw [build_uri_dict_run_trace api hnr]
    show ((column.map pySplit).flatten).dedup.count t = _
    exact List.count_dedup _ _
  · intro column api t
    have hsub := build_uri_dict_run_trace_sublist api (get_unique_values_from_column column)
    have hnd : (get_unique_values_from_column column).Nodup := List.nodup_dedup _
    calc ((build_uri_dict_run (get_unique_values_from_column column) api).1).count t
        ≤ (get_unique_values_from_column column).count t := hsub.count_le t
      _ ≤ 1 := List.nodup_iff_count_le_one.mp hnd t

/-- C7 witness: on a three-row column in which `"Cats"` occurs in every
row, a never-raising resolver is invoked on `"Cats"` exactly once. -/
theorem resolver_called_once_per_distinct_term_witness :
    ((build_uri_dict_run
        (get_unique_values_from_column ["Cats|Dogs", "Cats", "Birds|Cats"])
        (fun _ => Except.ok none)).1).count "Cats" = 1 := by
  rw [resolver_called_once_per_distinct_term.1 ["Cats|Dogs", "Cats", "Birds|Cats"]
    (fun _ => Except.ok none) "Cats" (fun _ _ h => Except.noConfusion h)]
  decide

/-! ## Claim C8: resolution failures — recovery versus propagation -/

/-- C8 counterexample: a resolver that raises (as `lc_get_subject_uri` does
on a network error, via an uncaught `requests` exception) makes the cache
build itself fail — the exception propagates out of `build_uri_dict`, which
has no handler, instead of being recovered by omitting the term. -/
theorem build_uri_dict_network_error_propagates :
    build_uri_dict ["Cats"]
      (fun _ => .error (.requestException "ConnectionError")) =
      .error (.requestException "ConnectionError") := rfl

/-- C8 (amended): `build_uri_dict` recovers locally only from resolution
failures the resolver signals by returning no URI (not-found → `None`,
skipped by `if uri:`): whenever the build completes, the mapping holds
`(term, uri)` exactly when the term was among the queried values and its
resolution succeeded with that non-empty URI.  A resolver failure signalled
by raising — a network error — is not caught: the exception propagates out
of the cache build as a fatal error and no mapping is returned. -/
theorem build_uri_dict_recovery_and_propagation :
    (∀ (values : List String) (api : String → Except PyError (Option String))
       (t u : String) (d : List (String × String)),
      build_uri_dict values api = .ok d →
      ((t, u) ∈ d ↔ t ∈ values ∧ api t = .ok (some u) ∧ u ≠ ""))
    ∧ (∀ (values : List String) (api : String → Except PyError (Option String)),
      (∃ v ∈ values, ∃ e, api v = .error e) →
      ∃ e', build_uri_dict values api = .error e') := by
  constructor
  · intro values api t u
    induction values with
    | nil =>
      intro d hd
      have hnil : ([] : List (String × String)) = d := by injection hd
      subst hnil
      simp
    | cons v vs ih =>
      intro d hd
      cases hv : api v with
      | error e =>
        rw [show build_uri_dict (v :: vs) api = .error e from by
          unfold build_uri_dict
          rw [run_cons_error api v vs e hv]] at hd
        exact absurd hd (by simp)
      | ok uri =>
        cases uri with
        | none =>
          have hstep : build_uri_dict (v :: vs) api = build_uri_dict vs api := by
            unfold build_uri_dict
            rw [run_cons_none api v vs hv]
          rw [hstep] at hd
          rw [ih d hd]
          constructor
          · rintro ⟨h1, h2, h3⟩
            exact ⟨List.mem_cons_of_mem _ h1, h2, h3⟩
          · rintro ⟨h1, h2, h3⟩
            rcases List.mem_cons.mp h1 with heq | h1'
            · subst heq
              rw [hv] at h2
              exact absurd h2 (by simp)
            · exact ⟨h1', h2, h3⟩
        | some w =>
          by_cases hw : w = ""
          · have hstep : build_uri_dict (v :: vs) api = build_uri_dict vs api := by
              unfold build_uri_dict
              rw [run_cons_some_empty api v vs w hv hw]
            rw [hstep] at hd
            rw [ih d hd]
            constructor
            · rintro ⟨h1, h2, h3⟩
              exact ⟨List.mem_cons_of_mem _ h1, h2, h3⟩
            · rintro ⟨h1, h2, h3⟩
              rcases List.mem_cons.mp h1 with heq | h1'
              · subst heq
                rw [hv] at h2
                injection h2 with h2'
                injection h2' with h2''
                exact absurd (h2'' ▸ hw) h3
              · exact ⟨h1', h2, h3⟩
          · have hstep : build_uri_dict (v :: vs) api =
                Except.map (fun dd => (v, w) :: dd) (build_uri_dict vs api) := by
              unfold build_uri_dict
              rw [run_cons_some_ne api v vs w hv hw]
            rw [hstep] at hd
            cases hvs : build_uri_dict vs api with
            | error e =>
              rw [hvs, exmap_error] at hd
              exact absurd hd (by simp)
            | ok d' =>
              rw [hvs, exmap_ok] at hd
              have hd' : d = (v, w) :: d' := by
                injection hd with h'
                exact h'.symm
              subst hd'
              rw [List.mem_cons, ih d' hvs]
              constructor
              · rintro (heq | ⟨h1, h2, h3⟩)
                · have ht : t = v := congrArg Prod.fst heq
                  have hu2 : u = w := congrArg Prod.snd heq
                  subst ht
                  subst hu2
                  exact ⟨List.mem_cons_self _ _, hv, hw⟩
                · exact ⟨List.mem_cons_of_mem _ h1, h2, h3⟩
              · rintro ⟨h1, h2, h3⟩
                rcases List.mem_cons.mp h1 with heq | h1'
                · left
                  subst heq
                  rw [hv] at h2
                  injection h2 with h2'
                  injection h2' with h2''
                  rw [h2'']
                · right
                  exact ⟨h1', h2, h3⟩
  · intro values api
    induction values with
    | nil =>
      rintro ⟨v, hvmem, _⟩
      exact absurd hvmem (by simp)
    | cons v vs ih =>
      rintro ⟨v', hvmem, e, he⟩
      cases hv : api v with
      | error e0 =>
        refine ⟨e0, ?_⟩
        unfold build_uri_dict
        rw [run_cons_error api v vs e0 hv]
      | ok uri =>
        have hv' : v' ∈ vs := by
          rcases List.mem_cons.mp hvmem with heq | h
          · subst heq
            rw [hv] at he
            exact absurd he (by simp)
          · exact h
        obtain ⟨e', he'⟩ := ih ⟨v', hv', e, he⟩
        cases uri with
        | none =>
          refine ⟨e', ?_⟩
          have hstep : build_uri_dict (v :: vs) api = build_uri_dict vs api := by
            unfold build_uri_dict
            rw [run_cons_none api v vs hv]
          rw [hstep, he']
        | some w =>
          by_cases hw : w = ""
          · refine ⟨e', ?_⟩
            have hstep : build_uri_dict (v :: vs) api = build_uri_dict vs api := by
              unfold build_uri_dict
              rw [run_cons_some_empty api v vs w hv hw]
            rw [hstep, he']
          · refine ⟨e', ?_⟩
            have hstep : build_uri_dict (v :: vs) api =
                Except.map (fun dd => (v, w) :: dd) (build_uri_dict vs api) := by
              unfold build_uri_dict
              rw [run_cons_some_ne api v vs w hv hw]
            rw [hstep, he', exmap_error]

/-- C8 witness: the propagation clause applied to a concrete raising
resolver on a one-term set. -/
theorem build_uri_dict_recovery_and_propagation_witness :
    ∃ e', build_uri_dict ["Cats"]
        (fun _ => .error (.requestException "ConnectionError")) = .error e' :=
  build_uri_dict_recovery_and_propagation.2 ["Cats"]
    (fun _ => .error (.requestException "ConnectionError"))
    ⟨"Cats", by decide, ⟨.requestException "ConnectionError", rfl⟩⟩

/-! ## Claim C9: local-name fallback and VIAF suppression ordering -/

/-- C9: the local-name pass writes a non-empty `nameCorpCreatorLocal` only
when both `nameCorpCreatorLC` and `nameCorpCreatorVIAF` are empty in the
row it reads, and the suppression pass of `main` blanks
`nameCorpCreatorVIAF` whenever `nameCorpCreatorLC` is populated. -/
theorem local_name_and_viaf_suppression :
    (∀ (row out : Row) (v : String),
      add_nameCorpCreatorLocal_column row = .ok out →
      rowGet out "nameCorpCreatorLocal" = .ok v → v ≠ "" →
      rowGet row "nameCorpCreatorLC" = .ok "" ∧
      rowGet row "nameCorpCreatorVIAF" = .ok "")
    ∧ (∀ (row : Row) (lc : String) (out : Row),
      suppress_viaf_if_lc row = .ok out →
      rowGet row "nameCorpCreatorLC" = .ok lc → lc ≠ "" →
      rowGet out "nameCorpCreatorVIAF" = .ok "") := by
  constructor
  · intro row out v hadd hget hv
    unfold add_nameCorpCreatorLocal_column at hadd
    cases hlc : rowGet row "nameCorpCreatorLC" with
    | error e => simp only [hlc, exbind_error] at hadd; exact absurd hadd (by simp)
    | ok lc =>
      simp only [hlc, exbind_ok] at hadd
      by_cases hlce : lc = ""
      · subst hlce
        rw [if_neg (by simp)] at hadd
        cases hviaf : rowGet row "nameCorpCreatorVIAF" with
        | error e => simp only [hviaf, exbind_error] at hadd; exact absurd hadd (by simp)
        | ok viaf =>
          simp only [hviaf, exbind_ok] at hadd
          by_cases hviafe : viaf = ""
          · subst hviafe
            exact ⟨rfl, rfl⟩
          · rw [if_pos (by simp [hviafe])] at hadd
            have hout : out = rowSet row "nameCorpCreatorLocal" "" := by
              injection hadd with h'
              exact h'.symm
            rw [hout, rowGet_rowSet_self] at hget
            injection hget with h''
            exact absurd h''.symm hv
      · rw [if_pos (by simp [hlce])] at hadd
        have hout : out = rowSet row "nameCorpCreatorLocal" "" := by
          injection hadd with h'
          exact h'.symm
        rw [hout, rowGet_rowSet_self] at hget
        injection hget with h''
        exact absurd h''.symm hv
  · intro row lc out hsup hlc hlcne
    unfold suppress_viaf_if_lc at hsup
    simp only [hlc, exbind_ok] at hsup
    rw [if_neg hlcne] at hsup
    have hout : out = rowSet row "nameCorpCreatorVIAF" "" := by
      injection hsup with h'
      exact h'.symm
    rw [hout]
    exact rowGet_rowSet_self row "nameCorpCreatorVIAF" ""

/-- A row with a populated `nameCorpCreatorLC`. -/
def exRowNine : Row := [("nameCorpCreatorLC", "X"), ("nameCorpCreatorVIAF", "Y")]

/-- C9 witness: on a row with populated LC name, the suppression pass leaves
the VIAF column empty. -/
theorem local_name_and_viaf_suppression_witness :
    rowGet (rowSet exRowNine "nameCorpCreatorVIAF" "") "nameCorpCreatorVIAF" =
      .ok "" :=
  local_name_and_viaf_suppression.2 exRowNine "X"
    (rowSet exRowNine "nameCorpCreatorVIAF" "") rfl rfl (by decide)

/-! ## Claim C10: the sources fallback always takes index 0 -/

/-- C10: splitting on `'|'` always yields at least one slice (so index `0`
never raises `IndexError` and the `Organization Name_subjects` fallback
branch is unreachable); splitting the empty string yields `[""]`; and on any
row with empty LC and VIAF names, `add_nameCorpCreatorLocal_column` sets
`nameCorpCreatorLocal` to the first piped slice of
`Organization Name_sources`, regardless of any other column. -/
theorem add_local_reads_sources_first_slice :
    (∀ s : String, pySplit s ≠ [])
    ∧ pySplit "" = [""]
    ∧ (∀ (row : Row) (src : String),
      rowGet row "nameCorpCreatorLC" = .ok "" →
      rowGet row "nameCorpCreatorVIAF" = .ok "" →
      rowGet row "Organization Name_sources" = .ok src →
      add_nameCorpCreatorLocal_column row =
        .ok (rowSet row "nameCorpCreatorLocal" ((pySplit src).headD ""))) := by
  refine ⟨pySplit_ne_nil, rfl, ?_⟩
  intro row src hlc hviaf hsrc
  unfold add_nameCorpCreatorLocal_column
  simp only [hlc, exbind_ok]
  rw [if_neg (by simp)]
  simp only [hviaf, exbind_ok]
  rw [if_neg (by simp)]
  simp only [hsrc, exbind_ok]
  cases hsp : pySplit src with
  | nil => exact absurd hsp (pySplit_ne_nil src)
  | cons a l => rfl

/-- The concrete row for the C10 witness. -/
def exRowTen : Row :=
  [("nameCorpCreatorLC", ""), ("nameCorpCreatorVIAF", ""),
   ("Organization Name_sources", "Acme|Beta")]

/-- C10 witness: the sources column's first piped slice (`"Acme"`) is taken
on a concrete row. -/
theorem add_local_reads_sources_first_slice_witness :
    add_nameCorpCreatorLocal_column exRowTen =
      .ok (rowSet exRowTen "nameCorpCreatorLocal" ((pySplit "Acme|Beta").headD "")) :=
  add_local_reads_sources_first_slice.2.2 exRowTen "Acme|Beta" rfl rfl rfl

